import Mathlib

/-!
Verification of the value-restoration and binding protocol of the
qi-electron-affinity repository against its natural-language specification.

The development shallowly embeds the relevant TypeScript/JavaScript code:

* `src/lib/restorer_lib.ts` — the `Restorer` namespace: restoration info,
  thrown-value marshaling (`makeRethrownReturnValue`, `wasThrownValue`,
  `restoreThrownValue`), value and argument restoration (`restoreValue`,
  `makeArgsRestorable`, `restoreArgs`), the `__ThrownNonObject` wrapper
  class, and the free function `genericRestorer`;
* the shared library (built output `shared_ipc.js`) — `exposeApi`,
  `getPropertyNames`, `toIpcName`, `retryUntilTimeout`,
  `setIpcBindingTimeout`;
* the renderer-side binding code — `bindMainApi` and
  `_attemptBindMainApi`, modelled as a small state machine over the
  module-level caches `_mainApiMap` and `_boundMainApis`.

JavaScript values are embedded as the inductive type `JSVal`.  An object
carries its constructor name (`constructor.name`), whether it is an
`instanceof Error`, whether it is a genuine instance of the internal
`Restorer.__ThrownNonObject` class (the `instanceof` test cannot be decided
from the class-name string alone, since an application class could reuse the
name), and its ordered own-property list.  Each own property records its
name, its enumerability (needed because `Object.assign` copies only own
enumerable properties, while property reads and `delete` see all own
properties), and its value.  Machine numbers are irrelevant to the claims,
so numbers are embedded as `Int`.
-/


inductive JSVal where
  | vUndefined : JSVal
  | vNull : JSVal
  | vBool (b : Bool) : JSVal
  | vNum (n : Int) : JSVal
  | vStr (s : String) : JSVal
  /-- A function value; only its identity matters to the embedded code. -/
  | vFunc (id : Nat) : JSVal
  /-- An object: constructor name, `instanceof Error`, genuine
  `__ThrownNonObject` instance, own properties (name, enumerable, value). -/
  | vObj (cls : String) (isErr : Bool) (genuineWrapper : Bool)
      (fields : List (String × Bool × JSVal)) : JSVal

open JSVal

/-- Own-property entry: name, enumerability, value. -/
abbrev JSField := String × Bool × JSVal

/-- `typeof` of an embedded value (note `typeof null == "object"`). -/
def typeofJS : JSVal → String
  | vUndefined => "undefined"
  | vNull => "object"
  | vBool _ => "boolean"
  | vNum _ => "number"
  | vStr _ => "string"
  | vFunc _ => "function"
  | vObj _ _ _ _ => "object"

/-- JavaScript truthiness. -/
def jsTruthy : JSVal → Bool
  | vUndefined => false
  | vNull => false
  | vBool b => b
  | vNum n => n != 0
  | vStr s => s ≠ ""
  | vFunc _ => true
  | vObj _ _ _ _ => true

/-- Loose inequality `value != undefined`: false exactly for `undefined`
and `null`. -/
def looseNeqUndefined : JSVal → Bool
  | vUndefined => false
  | vNull => false
  | _ => true

/-- First own property with the given name, if any. -/
def findField : List JSField → String → Option JSVal
  | [], _ => none
  | f :: r, n => if f.1 = n then some f.2.2 else findField r n

/-- Property read `v[name]` (own properties only; reads on primitives and
absent names yield `undefined`, which is what the embedded code observes). -/
def getProp (v : JSVal) (name : String) : JSVal :=
  match v with
  | vObj _ _ _ fs => (findField fs name).getD vUndefined
  | _ => vUndefined

/-- Whether `v` has an own property with the given name. -/
def hasProp (v : JSVal) (name : String) : Bool :=
  match v with
  | vObj _ _ _ fs => (findField fs name).isSome
  | _ => false

/-- Property write on a field list: update the first entry with that name in
place (keeping its enumerability, as JavaScript `[[Set]]` keeps property
attributes), or append a fresh enumerable entry. -/
def setFieldIn : List JSField → String → JSVal → List JSField
  | [], n, v => [(n, true, v)]
  | f :: r, n, v => if f.1 = n then (f.1, f.2.1, v) :: r else f :: setFieldIn r n v

/-- Property write `v[name] = x` (no effect on primitives, which the
embedded code never writes to). -/
def setProp (v : JSVal) (name : String) (x : JSVal) : JSVal :=
  match v with
  | vObj c e g fs => vObj c e g (setFieldIn fs name x)
  | _ => v

/-- Field-list deletion.  JavaScript objects have unique property names;
removing every entry with the name keeps the model sane on ill-formed
duplicate lists as well. -/
def removeField : List JSField → String → List JSField
  | [], _ => []
  | f :: r, n => if f.1 = n then removeField r n else f :: removeField r n

/-- `delete v[name]`. -/
def deleteProp (v : JSVal) (name : String) : JSVal :=
  match v with
  | vObj c e g fs => vObj c e g (removeField fs name)
  | _ => v

/-- Copy one own property during `Object.assign`: only enumerable
properties are copied. -/
def assignField (t : JSVal) (f : JSField) : JSVal :=
  if f.2.1 then setProp t f.1 f.2.2 else t

/-- One step of `Object.assign`: copy the own *enumerable* properties of
`src` onto `tgt`, in order.  Non-object sources other than strings are
ignored by `Object.assign`; the embedded code only ever passes object or
`null` sources. -/
def assignOne (tgt src : JSVal) : JSVal :=
  match src with
  | vObj _ _ _ fs => fs.foldl assignField tgt
  | _ => tgt

/-- `Object.assign(tgt, src₁, src₂, …)`. -/
def objAssign (tgt : JSVal) (srcs : List JSVal) : JSVal :=
  srcs.foldl assignOne tgt

/-- `value instanceof Error`. -/
def isErrorInstance : JSVal → Bool
  | vObj _ e _ _ => e
  | _ => false

/-- `value instanceof Restorer.__ThrownNonObject`. -/
def isGenuineWrapper : JSVal → Bool
  | vObj _ _ g _ => g
  | _ => false

/-- `typeof v == "function"`. -/
def isFunction : JSVal → Bool
  | vFunc _ => true
  | _ => false

/-- String conversion as performed by template literals and the `Error`
constructor. -/
def jsDisplay : JSVal → String
  | vUndefined => "undefined"
  | vNull => "null"
  | vBool b => if b then "true" else "false"
  | vNum n => toString n
  | vStr s => s
  | vFunc _ => "function"
  | vObj _ _ _ _ => "[object Object]"

/-- Constructor name of a value (`v.constructor.name`); only read by the
embedded code on objects, functions and primitives other than
`null`/`undefined`. -/
def constructorNameOf : JSVal → String
  | vObj c _ _ _ => c
  | vFunc _ => "Function"
  | vNum _ => "Number"
  | vStr _ => "String"
  | vBool _ => "Boolean"
  | _ => "undefined"

-- Restorer namespace of src/lib/restorer_lib.ts ---------------------------

/-- `interface RestorationInfo` of `restorer_lib.ts`: how to restore one
object-valued argument or return value.  `argIndex` is absent on creation
and filled in by `makeArgsRestorable`. -/
structure RestorationInfo where
  argIndex : Option Nat
  className : String
  isError : Bool
  isCallback : Bool
  deriving DecidableEq

/-- A `RestorerFunction`: `(className, obj) => restored`. -/
abbrev RestorerFn := String → JSVal → JSVal

/-- A map of restorable classes; each class is represented by its static
`restoreClass` method. -/
abbrev RestorableMap := List (String × (JSVal → JSVal))

/-- Association-list lookup for the restorable-class map. -/
def classLookup : RestorableMap → String → Option (JSVal → JSVal)
  | [], _ => none
  | p :: r, n => if p.1 = n then some p.2 else classLookup r n

/-- `genericRestorer` of `restorer_lib.ts`, already bound to its
`restorableClassMap`: look the class name up and call `restoreClass`,
or return the object unchanged when the name is not in the map. -/
def genericRestorer (restorableClassMap : RestorableMap)
    (className : String) (obj : JSVal) : JSVal :=
  match classLookup restorableClassMap className with
  | none => obj
  | some restoreClass => restoreClass obj

/-- A fresh instance of the internal class `Restorer.__ThrownNonObject`:
its field initializer sets `_affinity_rethrow = true` and the constructor
stores the thrown value.  The `genuineWrapper` flag records that the object
really is an instance of the class (for later `instanceof` tests). -/
def mkThrownNonObject (thrownValue : JSVal) : JSVal :=
  vObj "__ThrownNonObject" false true
    [("_affinity_rethrow", true, vBool true), ("thrownValue", true, thrownValue)]

/-- `Restorer.makeRestorationInfo`: `null` and primitives get no info;
objects and functions record constructor name, `instanceof Error`, and
whether the value is a function. -/
def makeRestorationInfo : JSVal → Option RestorationInfo
  | vNull => none
  | vUndefined => none
  | vBool _ => none
  | vNum _ => none
  | vStr _ => none
  | vFunc _ => some { argIndex := none, className := "Function",
                      isError := false, isCallback := true }
  | vObj cls ie _ _ => some { argIndex := none, className := cls,
                              isError := ie, isCallback := false }

/-- `Restorer.makeRethrownReturnValue`: box a non-object thrown value in
`__ThrownNonObject`; shallow-copy an object thrown value into a tagged
plain object (explicitly preserving `message` for `Error` instances, whose
own `message` is non-enumerable) and delete `stack`.  Returns the wire
value paired with its restoration info (the `[thrown, info]` array of the
source). -/
def makeRethrownReturnValue (thrown : JSVal) : JSVal × Option RestorationInfo :=
  if typeofJS thrown ≠ "object" then
    let boxed := mkThrownNonObject thrown
    (boxed, makeRestorationInfo boxed)
  else
    let info := makeRestorationInfo thrown
    let messageCarrier :=
      if isErrorInstance thrown then
        vObj "Object" false false [("message", true, getProp thrown "message")]
      else
        vObj "Object" false false []
    let returnedError :=
      objAssign (vObj "Object" false false [("_affinity_rethrow", true, vBool true)])
        [messageCarrier, thrown]
    (deleteProp returnedError "stack", info)

/-- `Restorer.wasThrownValue`: `value != undefined && value._affinity_rethrow`
— the result is the truthiness of the marker property, not its presence. -/
def wasThrownValue (value : JSVal) : Bool :=
  looseNeqUndefined value && jsTruthy (getProp value "_affinity_rethrow")

/-- `Restorer.restoreValue`: with info present, either rebuild the internal
non-object wrapper or hand the object to the restorer function. -/
def restoreValue (obj : JSVal) (info : Option RestorationInfo)
    (restorer : Option RestorerFn) : JSVal :=
  match info with
  | none => obj
  | some i =>
    if i.className = "__ThrownNonObject" then
      mkThrownNonObject (getProp obj "thrownValue")
    else
      match restorer with
      | some r => r i.className obj
      | none => obj

/-- `new Error(message)`: an `Error` instance whose own non-enumerable
`message` holds the stringified argument (absent when the argument is
`undefined`) and whose own non-enumerable `stack` holds an engine-generated
trace (placeholder text here; every path of the embedded code that builds
such an error overwrites `stack` before the value escapes). -/
def mkError (message : JSVal) : JSVal :=
  match message with
  | vUndefined => vObj "Error" true false
      [("stack", false, vStr "Error\n    at <anonymous>")]
  | m => vObj "Error" true false
      [("message", false, vStr (jsDisplay m)),
       ("stack", false, vStr "Error\n    at <anonymous>")]

/-- The synthetic stack written by `restoreThrownValue`:
`` `${value.constructor.name}: ${value.message}\n\tin main process` ``. -/
def syntheticStack (value : JSVal) : String :=
  constructorNameOf value ++ ": " ++ jsDisplay (getProp value "message")
    ++ "\n\tin main process"

/-- `Restorer.restoreThrownValue`.  The `info` parameter is `none` when the
caller received a `null` info (as happens for a thrown `null`); reading
`info.isError` then raises a `TypeError`, modelled by `Except.error`.  The
`instanceof Error` test short-circuits that read. -/
def restoreThrownValue (value : JSVal) (info : Option RestorationInfo)
    (restorer : Option RestorerFn) : Except String JSVal :=
  let v1 := deleteProp value "_affinity_rethrow"
  let v2 := restoreValue v1 info restorer
  if isGenuineWrapper v2 then
    Except.ok (getProp v2 "thrownValue")
  else if isErrorInstance v2 then
    Except.ok (setProp v2 "stack" (vStr (syntheticStack v2)))
  else
    match info with
    | none => Except.error "TypeError: cannot read properties of null"
    | some i =>
      if i.isError then
        let message := getProp v2 "message"
        let v3 := deleteProp v2 "message"
        let v4 := objAssign (mkError message) [v3]
        Except.ok (setProp v4 "stack" (vStr (syntheticStack v4)))
      else
        Except.ok v2

-- Argument marshaling ------------------------------------------------------

/-- Channel name allocated for the n-th callback:
`` `_affinity_event_callback_${n}` ``. -/
def callbackChannelName (n : Nat) : String :=
  "_affinity_event_callback_" ++ Nat.repr n

/-- The wire form of an argument list.  The source pushes the restoration
info list as a final extra element of the (otherwise homogeneous) `args`
array and `restoreArgs` pops it; the pair keeps that trailing element
explicit. -/
structure WireArgs where
  args : List JSVal
  infos : List RestorationInfo

/-- Loop body of `Restorer.makeArgsRestorable`, walking the argument list
with the current argument index `i` and the module-level counter
`callbackIx`.  Returns the rewritten arguments, the collected infos, the
`callbacks` map (channel name to original function) and the final counter. -/
def makeArgsRestorableAux (i ctr : Nat) :
    List JSVal → List JSVal × List RestorationInfo × List (String × JSVal) × Nat
  | [] => ([], [], [], ctr)
  | a :: rest =>
    match makeRestorationInfo a with
    | none =>
      let (as2, infos, cbs, c2) := makeArgsRestorableAux (i + 1) ctr rest
      (a :: as2, infos, cbs, c2)
    | some info0 =>
      let info := { info0 with argIndex := some i }
      if info.isCallback then
        let name := callbackChannelName (ctr + 1)
        let (as2, infos, cbs, c2) := makeArgsRestorableAux (i + 1) (ctr + 1) rest
        (vStr name :: as2, info :: infos, (name, a) :: cbs, c2)
      else
        let (as2, infos, cbs, c2) := makeArgsRestorableAux (i + 1) ctr rest
        (a :: as2, info :: infos, cbs, c2)

/-- `Restorer.makeArgsRestorable`, starting from counter value `ctr`
(the module-level `callbackIx` is pre-incremented before each use). -/
def makeArgsRestorable (ctr : Nat) (args : List JSVal) :
    WireArgs × List (String × JSVal) × Nat :=
  match makeArgsRestorableAux 0 ctr args with
  | (as2, infos, cbs, c2) => (⟨as2, infos⟩, cbs, c2)

/-- Loop body of `Restorer.restoreArgs`: an info applies to the current
argument exactly when its `argIndex` equals the loop index, in which case
the info cursor advances; callback-flagged arguments are recorded in the
returned `callbacks` map keyed by the (string) argument value. -/
def restoreArgsAux (restorer : Option RestorerFn) :
    Nat → List RestorationInfo → List JSVal → List JSVal × List (String × Nat)
  | _, _, [] => ([], [])
  | i, info :: moreInfos, a :: rest =>
    if info.argIndex = some i then
      let a2 := restoreValue a (some info) restorer
      let (as2, cbs) := restoreArgsAux restorer (i + 1) moreInfos rest
      (a2 :: as2, if info.isCallback then (jsDisplay a2, i) :: cbs else cbs)
    else
      let a2 := restoreValue a none restorer
      let (as2, cbs) := restoreArgsAux restorer (i + 1) (info :: moreInfos) rest
      (a2 :: as2, cbs)
  | i, [], a :: rest =>
    let a2 := restoreValue a none restorer
    let (as2, cbs) := restoreArgsAux restorer (i + 1) [] rest
    (a2 :: as2, cbs)

/-- `Restorer.restoreArgs`: pop the trailing info list and restore each
argument, returning the callback-channel-to-argument-index map. -/
def restoreArgs (w : WireArgs) (restorer : Option RestorerFn) :
    List JSVal × List (String × Nat) :=
  restoreArgsAux restorer 0 w.infos w.args

-- Specification-side descriptions of the marshaling (used to state C4) ----

/-- The indexed restoration-info records the claim describes: one per
object- or function-valued argument, tagged with its argument index. -/
def argInfosFrom (i : Nat) : List JSVal → List RestorationInfo
  | [] => []
  | a :: r =>
    match makeRestorationInfo a with
    | none => argInfosFrom (i + 1) r
    | some inf => { inf with argIndex := some i } :: argInfosFrom (i + 1) r

/-- The wire argument list the claim describes: non-function arguments
unchanged, each function argument replaced by a freshly allocated channel
name carrying the next counter value. -/
def wireArgsFrom (ctr : Nat) : List JSVal → List JSVal
  | [] => []
  | a :: r =>
    if isFunction a then vStr (callbackChannelName (ctr + 1)) :: wireArgsFrom (ctr + 1) r
    else a :: wireArgsFrom ctr r

/-- The channel-name-to-original-function map the claim describes. -/
def callbackAssoc (ctr : Nat) : List JSVal → List (String × JSVal)
  | [] => []
  | a :: r =>
    if isFunction a then (callbackChannelName (ctr + 1), a) :: callbackAssoc (ctr + 1) r
    else callbackAssoc ctr r

/-- The channel-name-to-argument-index map the claim describes for
`restoreArgs`. -/
def callbackIndexMap (ctr i : Nat) : List JSVal → List (String × Nat)
  | [] => []
  | a :: r =>
    if isFunction a then (callbackChannelName (ctr + 1), i) :: callbackIndexMap (ctr + 1) (i + 1) r
    else callbackIndexMap ctr (i + 1) r

/-- Number of function-valued arguments. -/
def countCallbacks : List JSVal → Nat
  | [] => 0
  | a :: r => (if isFunction a then 1 else 0) + countCallbacks r

/-- An argument list is free of the reserved internal wrapper class name
(`__ThrownNonObject` is underscore-prefixed precisely so that application
classes never collide with it). -/
def notWrapperClass : JSVal → Bool
  | vObj cls _ _ _ => cls ≠ "__ThrownNonObject"
  | _ => true

-- Injectivity of decimal `Nat.repr`, hence of the callback channel names --

/-- Fuel-free decimal digit list of a natural number. -/
def decDigits (n : Nat) : List Char :=
  if _h : n < 10 then [Nat.digitChar n]
  else decDigits (n / 10) ++ [Nat.digitChar (n % 10)]
  decreasing_by exact Nat.div_lt_self (by omega) (by omega)

/-- Numeric value of a decimal digit character. -/
def digitVal (c : Char) : Nat := c.toNat - 48

/-- Decode a decimal digit string. -/
def decodeDec (l : List Char) : Nat :=
  l.foldl (fun a c => 10 * a + digitVal c) 0

-- Shared library: exposeApi / getPropertyNames / toIpcName ----------------

/-- An API instance as seen by `exposeApi`: its constructor name and its
prototype chain strictly below `Object.prototype`.  The first level holds
the instance's own properties, the following levels the own properties of
each prototype (for a class instance: the class prototype, then each
superclass prototype).  Real class prototypes list their `constructor`
among their own properties. -/
structure ApiObj where
  className : String
  levels : List (List (String × JSVal))

/-- `getPropertyNames` of the shared library: walk the chain collecting own
property names, stopping at the first object that itself owns
`hasOwnProperty` (normally `Object.prototype`, which terminates the chain
below every `levels` list). -/
def getPropertyNames : List (List (String × JSVal)) → List String
  | [] => []
  | lvl :: rest =>
    if lvl.any (fun p => p.1 = "hasOwnProperty") then []
    else lvl.map Prod.fst ++ getPropertyNames rest

/-- Property lookup `api[name]` through the prototype chain: the first
level owning the name wins. -/
def protoLookup (levels : List (List (String × JSVal))) (name : String) : JSVal :=
  match levels with
  | [] => vUndefined
  | lvl :: rest =>
    match findField (lvl.map (fun p => (p.1, true, p.2))) name with
    | some v => v
    | none => protoLookup rest name

/-- `toIpcName`: `"<ApiName>:<methodName>"`. -/
def toIpcName (apiClassName methodName : String) : String :=
  apiClassName ++ ":" ++ methodName

/-- Registry mapping API class names to their exposed method names. -/
abbrev ApiRegistrationMap := List (String × List String)

/-- Association-list lookup on a registry. -/
def regLookup : ApiRegistrationMap → String → Option (List String)
  | [], _ => none
  | p :: r, n => if p.1 = n then some p.2 else regLookup r n

/-- Loop of `exposeApi` over the collected property names: skip
`constructor` and names starting with the privacy markers, and for each
remaining name whose looked-up value is callable, install a handler and
record the method name. -/
def exposeApiLoop (api : ApiObj) : List String → List String × List (String × JSVal)
  | [] => ([], [])
  | m :: rest =>
    let (ms, hs) := exposeApiLoop api rest
    if m ≠ "constructor" ∧ ¬ (m.data.head? = some '_' ∨ m.data.head? = some '#') then
      let method := protoLookup api.levels m
      if isFunction method then
        (m :: ms, (toIpcName api.className m, method) :: hs)
      else (ms, hs)
    else (ms, hs)

/-- `exposeApi` of the shared library: a silent no-op when the class name is
already registered (the registry value, an array, is always truthy);
otherwise walk `getPropertyNames`, install one handler per qualifying
method, and register the method-name list.  Returns the updated registry
and the installed handlers in order. -/
def exposeApi (apiMap : ApiRegistrationMap) (api : ApiObj) :
    ApiRegistrationMap × List (String × JSVal) :=
  match regLookup apiMap api.className with
  | some _ => (apiMap, [])
  | none =>
    match exposeApiLoop api (getPropertyNames api.levels) with
    | (ms, hs) => (apiMap ++ [(api.className, ms)], hs)

/-- The method set described by the specification sentence behind claim C5:
every property name reachable through the chain below the universal base
object that does not begin with a privacy marker and whose value is
callable.  (Modelled from the claim wording, for comparison with
`exposeApi`; note it does not exclude `constructor`.) -/
def specPublicMethods (api : ApiObj) : List String :=
  (getPropertyNames api.levels).filter (fun m =>
    decide (¬ (m.data.head? = some '_' ∨ m.data.head? = some '#'))
      && isFunction (protoLookup api.levels m))

/-- The method list `exposeApi` actually registers (also excludes
`constructor`). -/
def implPublicMethods (api : ApiObj) : List String :=
  (getPropertyNames api.levels).filter (fun m =>
    decide (m ≠ "constructor")
      && decide (¬ (m.data.head? = some '_' ∨ m.data.head? = some '#'))
      && isFunction (protoLookup api.levels m))

-- Shared library: retryUntilTimeout ---------------------------------------

/-- Fixed retry period `_RETRY_MILLIS`. -/
def retryMillis : Nat := 50

/-- Default value of the mutable module variable `_bindingTimeoutMillis`. -/
def defaultBindingTimeoutMillis : Nat := 4000

/-- Outcome of a `retryUntilTimeout` run. -/
inductive RetryOutcome where
  | succeeded (checkIdx : Nat)
  | threw (msg : String) (checkIdx elapsed : Nat)
  | outOfFuel
  deriving DecidableEq

/-- `retryUntilTimeout` of the shared library.  `attempt k` is the result
of the k-th call of `attemptFunc`; `timeoutAt k` is the value the mutable
`_bindingTimeoutMillis` holds when the k-th check runs (so a
`setIpcBindingTimeout` call between checks is visible at the next check —
the code reads the current value, never a snapshot).  `fuel` bounds the
recursion depth so the function stays total; every theorem supplies enough
fuel. -/
def retryRun (timeoutAt : Nat → Nat) (attempt : Nat → Bool) (msg : String) :
    Nat → Nat → Nat → RetryOutcome
  | 0, _, _ => RetryOutcome.outOfFuel
  | fuel + 1, elapsed, k =>
    if attempt k then RetryOutcome.succeeded k
    else if timeoutAt k ≤ elapsed then RetryOutcome.threw msg k elapsed
    else retryRun timeoutAt attempt msg fuel (elapsed + retryMillis) (k + 1)

/-- The timeout message `bindMainApi` passes to `retryUntilTimeout`:
`` `Timed out waiting to bind main API '${apiClassName}'` ``. -/
def bindTimeoutMessage (apiClassName : String) : String :=
  "Timed out waiting to bind main API " ++ String.singleton (Char.ofNat 39)
    ++ apiClassName ++ String.singleton (Char.ofNat 39)

-- Renderer-side binding state machine --------------------------------------

/-- Process-local state of the renderer binding code: the discovery cache
`_mainApiMap`, the bound-proxy cache `_boundMainApis` (proxies are
identified by allocation number, since `_attemptBindMainApi` creates a
fresh object each time it runs), the next fresh proxy id, the log of
discovery requests sent on the fixed request channel, the retry loops in
flight, and the promise resolutions performed so far. -/
structure BindState where
  mainApiMap : ApiRegistrationMap
  bound : List (String × Nat)
  nextProxyId : Nat
  sentRequests : List String
  pendingLoops : List (Nat × String)
  resolved : List (Nat × Nat)

/-- Proxy-cache lookup (`_boundMainApis[apiClassName]`; a cached proxy
object is always truthy). -/
def boundLookup : List (String × Nat) → String → Option Nat
  | [], _ => none
  | p :: r, n => if p.1 = n then some p.2 else boundLookup r n

/-- Which proxy a promise was resolved with (later resolutions shadow
none, since a promise resolves at most once; the model prepends). -/
def resolvedLookup : List (Nat × Nat) → Nat → Option Nat
  | [], _ => none
  | p :: r, n => if p.1 = n then some p.2 else resolvedLookup r n

/-- The synchronous part of `bindMainApi(apiClassName)` for promise `pid`:
resolve immediately from the proxy cache when present; otherwise send one
discovery request on the fixed request channel and start a retry loop. -/
def bindMainApiStep (pid : Nat) (apiClassName : String) (s : BindState) : BindState :=
  match boundLookup s.bound apiClassName with
  | some p => { s with resolved := (pid, p) :: s.resolved }
  | none =>
    { s with sentRequests := s.sentRequests ++ [apiClassName],
             pendingLoops := s.pendingLoops ++ [(pid, apiClassName)] }

/-- Delivery of a discovery response: the listener stores the registration
in `_mainApiMap`. -/
def registryArrives (apiClassName : String) (methodNames : List String)
    (s : BindState) : BindState :=
  { s with mainApiMap := s.mainApiMap ++ [(apiClassName, methodNames)] }

/-- One run of `_attemptBindMainApi` for the retry loop of promise `pid`:
fail (return `false`) while `_mainApiMap` has no entry; once it does,
construct a fresh proxy object, cache it in `_boundMainApis`
(unconditionally overwriting), resolve the promise with it, and succeed.
Note the attempt consults only `_mainApiMap`, never the proxy cache. -/
def attemptBindMainApi (pid : Nat) (apiClassName : String) (s : BindState) :
    BindState × Bool :=
  match regLookup s.mainApiMap apiClassName with
  | none => (s, false)
  | some _ =>
    let proxy := s.nextProxyId
    ({ s with nextProxyId := proxy + 1,
              bound := (apiClassName, proxy) :: s.bound,
              resolved := (pid, proxy) :: s.resolved,
              pendingLoops := s.pendingLoops.filter (fun l => l.1 ≠ pid) },
     true)

-- Basic field-operation lemmas --------------------------------------------

-- Concrete inputs used by counterexamples and scenario runs --------------

/-- A wire value carrying the relay-tag property with a falsy value. -/
def falsyMarkerObj : JSVal :=
  vObj "Object" false false [("_affinity_rethrow", true, vBool false)]

/-- A class instance as `exposeApi` sees it: no own instance properties;
the class prototype owns its `constructor` (as every real class prototype
does) and one public method. -/
def apiWithConstructor : ApiObj :=
  { className := "MainApi1",
    levels := [[], [("constructor", vFunc 0), ("doTask", vFunc 1)]] }

/-- The initial renderer binding state: empty caches, nothing sent. -/
def bindStateEmpty : BindState :=
  { mainApiMap := [], bound := [], nextProxyId := 0,
    sentRequests := [], pendingLoops := [], resolved := [] }

/-- Two concurrent `bindMainApi` calls (promises `p1`, `p2`) for the same
not-yet-exposed API name, followed by the discovery response and one retry
attempt of each loop, in order. -/
def concurrentBindScenario (s : BindState) (p1 p2 : Nat) (name : String)
    (ms : List String) : BindState :=
  (attemptBindMainApi p2 name
    (attemptBindMainApi p1 name
      (registryArrives name ms
        (bindMainApiStep p2 name
          (bindMainApiStep p1 name s)))).1).1

/-- The concurrent-bind scenario run from the initial state. -/
def concurrentBindRun : BindState :=
  concurrentBindScenario bindStateEmpty 1 2 "MainApi2" ["doTask"]

/-- A concrete argument list: primitives, two callbacks, one plain object. -/
def argsW : List JSVal :=
  [vNum 7, vFunc 3, vStr "cb", vObj "Point" false false [("x", true, vNum 1)],
   vFunc 8]

theorem findField_setFieldIn_self (fs : List JSField) (n : String) (v : JSVal) :
    findField (setFieldIn fs n v) n = some v := by
  induction fs with
  | nil => simp [setFieldIn, findField]
  | cons f r ih =>
    by_cases h : f.1 = n
    · simp [setFieldIn, findField, h]
    · simp [setFieldIn, findField, h, ih]

theorem findField_setFieldIn_other (fs : List JSField) (n q : String) (v : JSVal)
    (h : q ≠ n) : findField (setFieldIn fs n v) q = findField fs q := by
  have hnq : ¬ (n = q) := fun hh => h hh.symm
  induction fs with
  | nil => simp [setFieldIn, findField, hnq]
  | cons f r ih =>
    obtain ⟨fn, fe, fv⟩ := f
    by_cases hf : fn = n
    · subst hf
      simp [setFieldIn, findField, hnq]
    · by_cases hq : fn = q
      · simp [setFieldIn, findField, hf, hq, h]
      · simp [setFieldIn, findField, hf, hq, ih]

theorem findField_removeField_self (fs : List JSField) (n : String) :
    findField (removeField fs n) n = none := by
  induction fs with
  | nil => simp [removeField, findField]
  | cons f r ih =>
    by_cases h : f.1 = n
    · simp [removeField, h, ih]
    · simp [removeField, findField, h, ih]

theorem findField_removeField_other (fs : List JSField) (n q : String)
    (h : q ≠ n) : findField (removeField fs n) q = findField fs q := by
  have hnq : ¬ (n = q) := fun hh => h hh.symm
  induction fs with
  | nil => simp [removeField]
  | cons f r ih =>
    obtain ⟨fn, fe, fv⟩ := f
    by_cases hf : fn = n
    · subst hf
      simp [removeField, findField, hnq, ih]
    · by_cases hq : fn = q
      · simp [removeField, findField, hf, hq, h]
      · simp [removeField, findField, hf, hq, ih]

theorem getProp_setProp_self (c : String) (e g : Bool) (fs : List JSField)
    (n : String) (v : JSVal) : getProp (setProp (vObj c e g fs) n v) n = v := by
  simp [getProp, setProp, findField_setFieldIn_self]

theorem getProp_setProp_other (c : String) (e g : Bool) (fs : List JSField)
    (n q : String) (v : JSVal) (h : q ≠ n) :
    getProp (setProp (vObj c e g fs) n v) q = getProp (vObj c e g fs) q := by
  simp [getProp, setProp, findField_setFieldIn_other _ _ _ _ h]

theorem getProp_deleteProp_other (v : JSVal) (n q : String) (h : q ≠ n) :
    getProp (deleteProp v n) q = getProp v q := by
  cases v <;> simp [getProp, deleteProp]
  case vObj c e g fs => simp [findField_removeField_other _ _ _ h]

theorem hasProp_deleteProp_self (v : JSVal) (n : String) :
    hasProp (deleteProp v n) n = false := by
  cases v <;> simp [hasProp, deleteProp]
  case vObj c e g fs => simp [findField_removeField_self]

theorem toDigitsCore_ten_append (fuel : Nat) :
    ∀ (n : Nat) (ds : List Char),
      Nat.toDigitsCore 10 fuel n ds = Nat.toDigitsCore 10 fuel n [] ++ ds := by
  induction fuel with
  | zero => intro n ds; simp [Nat.toDigitsCore]
  | succ fuel ih =>
    intro n ds
    simp only [Nat.toDigitsCore]
    by_cases h : n / 10 = 0
    · simp [h]
    · simp only [h, if_false]
      rw [ih (n / 10) [Nat.digitChar (n % 10)], ih (n / 10) (Nat.digitChar (n % 10) :: ds),
        List.append_assoc]
      rfl

theorem toDigitsCore_ten_eq_decDigits (fuel : Nat) :
    ∀ n : Nat, n < fuel → Nat.toDigitsCore 10 fuel n [] = decDigits n := by
  induction fuel with
  | zero => intro n h; omega
  | succ fuel ih =>
    intro n hn
    simp only [Nat.toDigitsCore]
    by_cases h : n / 10 = 0
    · have h10 : n < 10 := by omega
      have : n % 10 = n := Nat.mod_eq_of_lt h10
      rw [decDigits]
      simp [h, h10, this]
    · have h10 : ¬ n < 10 := by
        intro hc
        exact h (Nat.div_eq_of_lt hc)
      have hdiv : n / 10 < n := Nat.div_lt_self (by omega) (by omega)
      rw [decDigits]
      simp only [h, if_false, h10, dif_neg, not_false_iff]
      rw [toDigitsCore_ten_append, ih (n / 10) (by omega)]

theorem digitVal_digitChar : ∀ m : Nat, m < 10 → digitVal (Nat.digitChar m) = m := by
  decide

theorem decodeDec_append_one (xs : List Char) (c : Char) :
    decodeDec (xs ++ [c]) = 10 * decodeDec xs + digitVal c := by
  simp [decodeDec, List.foldl_append]

theorem decodeDec_decDigits (n : Nat) : decodeDec (decDigits n) = n := by
  induction n using Nat.strong_induction_on with
  | _ n ih =>
    rw [decDigits]
    by_cases h : n < 10
    · simp [h, decodeDec, digitVal_digitChar n h]
    · have hdiv : n / 10 < n := Nat.div_lt_self (by omega) (by omega)
      simp only [h, dif_neg, not_false_iff]
      rw [decodeDec_append_one, ih (n / 10) hdiv,
        digitVal_digitChar (n % 10) (Nat.mod_lt n (by omega))]
      omega

theorem decDigits_injective {m n : Nat} (h : decDigits m = decDigits n) : m = n := by
  have := congrArg decodeDec h
  rwa [decodeDec_decDigits, decodeDec_decDigits] at this

theorem natRepr_data (n : Nat) : (Nat.repr n).data = decDigits n := by
  show (Nat.toDigits 10 n).asString.data = decDigits n
  show Nat.toDigitsCore 10 (n + 1) n [] = decDigits n
  exact toDigitsCore_ten_eq_decDigits (n + 1) n (by omega)

theorem callbackChannelName_injective {m n : Nat}
    (h : callbackChannelName m = callbackChannelName n) : m = n := by
  have hd := congrArg String.data h
  simp only [callbackChannelName, String.data_append] at hd
  have : (Nat.repr m).data = (Nat.repr n).data := by
    exact List.append_cancel_left hd
  rw [natRepr_data, natRepr_data] at this
  exact decDigits_injective this

-- Lemmas about Object.assign and field lists ------------------------------

theorem getProp_setProp_other_any (v : JSVal) (n q : String) (x : JSVal)
    (h : q ≠ n) : getProp (setProp v n x) q = getProp v q := by
  cases v <;> simp [getProp, setProp]
  case vObj c e g fs => simp [findField_setFieldIn_other _ _ _ _ h]

theorem assignFields_meta (src : List JSField) (c : String) (e g : Bool) :
    ∀ acc : List JSField, ∃ acc2,
      src.foldl assignField (vObj c e g acc) = vObj c e g acc2 := by
  induction src with
  | nil => intro acc; exact ⟨acc, rfl⟩
  | cons f r ih =>
    intro acc
    by_cases hf : f.2.1
    · have : assignField (vObj c e g acc) f = vObj c e g (setFieldIn acc f.1 f.2.2) := by
        simp [assignField, hf, setProp]
      simpa [List.foldl_cons, this] using ih (setFieldIn acc f.1 f.2.2)
    · have : assignField (vObj c e g acc) f = vObj c e g acc := by
        simp [assignField, hf]
      simpa [List.foldl_cons, this] using ih acc

theorem getProp_assignFields_stable (src : List JSField) (q : String) (v : JSVal)
    (h : ∀ f ∈ src, f.1 = q → f.2.2 = v) :
    ∀ t : JSVal, getProp t q = v → getProp (src.foldl assignField t) q = v := by
  induction src with
  | nil => intro t ht; simpa using ht
  | cons f r ih =>
    intro t ht
    have hr : ∀ f2 ∈ r, f2.1 = q → f2.2.2 = v := fun f2 hf2 => h f2 (List.mem_cons_of_mem _ hf2)
    rw [List.foldl_cons]
    apply ih hr
    by_cases he : f.2.1
    · by_cases hn : f.1 = q
      · have hv : f.2.2 = v := h f (List.mem_cons_self _ _) hn
        subst hn
        cases t <;> simp [assignField, he, setProp, getProp, hv,
          findField_setFieldIn_self]
        · exact ht
        · exact ht
        · exact ht
        · exact ht
        · exact ht
        · exact ht
      · rw [assignField, if_pos he, getProp_setProp_other_any _ _ _ _ (fun hh => hn hh.symm)]
        exact ht
    · simpa [assignField, he] using ht

theorem getProp_assignFields_absent (src : List JSField) (q : String)
    (h : ∀ f ∈ src, f.2.1 = true → f.1 ≠ q) :
    ∀ t : JSVal, getProp (src.foldl assignField t) q = getProp t q := by
  induction src with
  | nil => intro t; rfl
  | cons f r ih =>
    intro t
    have hr : ∀ f2 ∈ r, f2.2.1 = true → f2.1 ≠ q := fun f2 hf2 => h f2 (List.mem_cons_of_mem _ hf2)
    rw [List.foldl_cons, ih hr]
    by_cases he : f.2.1
    · have hn : f.1 ≠ q := h f (List.mem_cons_self _ _) he
      rw [assignField, if_pos he, getProp_setProp_other_any _ _ _ _ (fun hh => hn hh.symm)]
    · simp [assignField, he]

theorem removeField_not_named (fs : List JSField) (n : String) :
    ∀ f ∈ removeField fs n, f.1 ≠ n := by
  induction fs with
  | nil => intro f hf; simp [removeField] at hf
  | cons g r ih =>
    intro f hf
    by_cases hg : g.1 = n
    · rw [removeField, if_pos hg] at hf
      exact ih f hf
    · rw [removeField, if_neg hg] at hf
      rcases List.mem_cons.mp hf with h1 | h2
      · subst h1; exact hg
      · exact ih f h2

theorem findField_none_not_named (fs : List JSField) (q : String)
    (h : findField fs q = none) : ∀ f ∈ fs, f.1 ≠ q := by
  induction fs with
  | nil => intro f hf; simp at hf
  | cons g r ih =>
    intro f hf
    by_cases hg : g.1 = q
    · rw [findField, if_pos hg] at h
      exact absurd h (by simp)
    · rw [findField, if_neg hg] at h
      rcases List.mem_cons.mp hf with h1 | h2
      · subst h1; exact hg
      · exact ih h f h2

theorem findField_unique (fs : List JSField) (q : String) (v : JSVal)
    (hnd : (fs.map (fun f => f.1)).Nodup) (hq : findField fs q = some v) :
    ∀ f ∈ fs, f.1 = q → f.2.2 = v := by
  induction fs with
  | nil => intro f hf; simp at hf
  | cons g r ih =>
    intro f hf hfq
    have hnd2 : (r.map (fun f => f.1)).Nodup := (List.nodup_cons.mp hnd).2
    have hgmem : g.1 ∉ r.map (fun f => f.1) := (List.nodup_cons.mp hnd).1
    by_cases hg : g.1 = q
    · rw [findField, if_pos hg] at hq
      rcases List.mem_cons.mp hf with h1 | h2
      · subst h1
        simpa using hq
      · exfalso
        apply hgmem
        rw [hg, ← hfq]
        exact List.mem_map.mpr ⟨f, h2, rfl⟩
    · rw [findField, if_neg hg] at hq
      rcases List.mem_cons.mp hf with h1 | h2
      · subst h1; exact absurd hfq hg
      · exact ih hnd2 hq f h2 hfq


theorem regLookup_append_some (apiMap : ApiRegistrationMap) (n : String)
    (ms : List String) (h : regLookup apiMap n = none) :
    regLookup (apiMap ++ [(n, ms)]) n = some ms := by
  induction apiMap with
  | nil => simp [regLookup]
  | cons p r ih =>
    by_cases hp : p.1 = n
    · rw [regLookup, if_pos hp] at h
      exact absurd h (by simp)
    · rw [regLookup, if_neg hp] at h
      simpa [regLookup, hp] using ih h

-- Claim C9 -----------------------------------------------------------------

/-- C9 (amended): `wasThrownValue(v)` is true iff the relay-tag property
`_affinity_rethrow` is present on `v` *with a truthy value*; mere presence
is not enough, because the source returns the truthiness of
`value._affinity_rethrow`, not a presence test. -/
theorem wasThrownValue_iff_truthy_marker (v : JSVal) :
    wasThrownValue v = true ↔
      (hasProp v "_affinity_rethrow" = true ∧
        jsTruthy (getProp v "_affinity_rethrow") = true) := by
  cases v <;>
    simp [wasThrownValue, looseNeqUndefined, getProp, hasProp, jsTruthy]
  case vObj c e g fs =>
    cases h : findField fs "_affinity_rethrow" <;> simp [h, jsTruthy]

/-- C9 counterexample: a wire value carrying the marker property with value
`false` — the property is present, yet `wasThrownValue` returns false, so
the claim "true iff the marker is present" fails. -/
theorem wasThrownValue_presence_counterexample :
    hasProp falsyMarkerObj "_affinity_rethrow" = true ∧
      wasThrownValue falsyMarkerObj = false := by
  constructor <;> rfl

-- Claim C10 ----------------------------------------------------------------

/-- C10: any thrown value that does not itself carry an own
`_affinity_rethrow` property is marshaled by `makeRethrownReturnValue` into
a wire value that `wasThrownValue` recognizes: the tag is set on the
`__ThrownNonObject` box for non-objects and survives the shallow copy for
objects, so a relayed throw is never mistaken for an ordinary return. -/
theorem makeRethrownReturnValue_recognized (t : JSVal)
    (h : hasProp t "_affinity_rethrow" = false) :
    wasThrownValue (makeRethrownReturnValue t).1 = true := by
  cases t with
  | vObj c e g fs =>
    have hnone : findField fs "_affinity_rethrow" = none := by
      cases hf : findField fs "_affinity_rethrow" with
      | none => rfl
      | some x => rw [hasProp, hf] at h; simp at h
    have hnotin : ∀ f ∈ fs, f.2.1 = true → f.1 ≠ "_affinity_rethrow" :=
      fun f hf _ => findField_none_not_named fs _ hnone f hf
    rw [makeRethrownReturnValue]
    simp only [typeofJS, ne_eq, not_true_eq_false, if_false]
    set base : JSVal :=
      vObj "Object" false false [("_affinity_rethrow", true, vBool true)] with hbase
    have htag1 : ∀ t1 : JSVal,
        getProp t1 "_affinity_rethrow" = vBool true →
        getProp (assignOne t1
          (if isErrorInstance (vObj c e g fs) then
            vObj "Object" false false
              [("message", true, getProp (vObj c e g fs) "message")]
           else vObj "Object" false false [])) "_affinity_rethrow" = vBool true := by
      intro t1 ht1
      by_cases he : isErrorInstance (vObj c e g fs)
      · rw [if_pos he]
        show getProp (List.foldl assignField t1 _) _ = _
        rw [List.foldl_cons, List.foldl_nil]
        have hstep : assignField t1 ("message", true, getProp (vObj c e g fs) "message")
            = setProp t1 "message" (getProp (vObj c e g fs) "message") := by
          simp [assignField]
        rw [hstep, getProp_setProp_other_any _ _ _ _ (by decide)]
        exact ht1
      · rw [if_neg he]
        exact ht1
    have htag : getProp (objAssign base
        [(if isErrorInstance (vObj c e g fs) then
            vObj "Object" false false
              [("message", true, getProp (vObj c e g fs) "message")]
          else vObj "Object" false false []), vObj c e g fs])
        "_affinity_rethrow" = vBool true := by
      rw [objAssign, List.foldl_cons, List.foldl_cons, List.foldl_nil]
      show getProp (List.foldl assignField _ fs) _ = _
      rw [getProp_assignFields_absent fs _ hnotin]
      exact htag1 base rfl
    rw [wasThrownValue]
    rw [getProp_deleteProp_other _ _ _ (by decide), htag]
    have hobj : ∃ acc2, objAssign base
        [(if isErrorInstance (vObj c e g fs) then
            vObj "Object" false false
              [("message", true, getProp (vObj c e g fs) "message")]
          else vObj "Object" false false []), vObj c e g fs] =
        vObj "Object" false false acc2 := by
      rw [objAssign, List.foldl_cons, List.foldl_cons, List.foldl_nil]
      have h1 : ∃ acc1, (assignOne base
          (if isErrorInstance (vObj c e g fs) then
            vObj "Object" false false
              [("message", true, getProp (vObj c e g fs) "message")]
           else vObj "Object" false false [])) = vObj "Object" false false acc1 := by
        by_cases he : isErrorInstance (vObj c e g fs)
        · rw [if_pos he]
          exact ⟨_, rfl⟩
        · rw [if_neg he]
          exact ⟨_, rfl⟩
      obtain ⟨acc1, hacc1⟩ := h1
      rw [hacc1]
      exact assignFields_meta fs "Object" false false acc1
    obtain ⟨acc2, hacc2⟩ := hobj
    rw [hacc2]
    rfl
  | vNull => decide
  | vUndefined => decide
  | vBool b => cases b <;> decide
  | vNum n => rfl
  | vStr s => rfl
  | vFunc id => rfl

/-- C10 witness: the literal thrown `42`. -/
theorem makeRethrownReturnValue_recognized_witness :
    wasThrownValue (makeRethrownReturnValue (vNum 42)).1 = true :=
  makeRethrownReturnValue_recognized (vNum 42) rfl

-- Claim C3 -----------------------------------------------------------------

/-- C3: a plain-data object whose class name is not the reserved internal
wrapper name passes through `restoreValue` unchanged, both with no restorer
and with `genericRestorer` bound to a class map that lacks the class name
(the class-name lookup misses and `genericRestorer` returns the object
itself); no exception is possible (`restoreValue` is total). -/
theorem restoreValue_unknown_class_identity (cls : String) (ie ge : Bool)
    (F : List JSField) (M : RestorableMap)
    (h1 : cls ≠ "__ThrownNonObject") (h2 : classLookup M cls = none) :
    restoreValue (vObj cls ie ge F)
        (makeRestorationInfo (vObj cls ie ge F)) none = vObj cls ie ge F ∧
    restoreValue (vObj cls ie ge F)
        (makeRestorationInfo (vObj cls ie ge F))
        (some (genericRestorer M)) = vObj cls ie ge F := by
  constructor <;>
    simp [makeRestorationInfo, restoreValue, h1, genericRestorer, h2]

/-- C3 witness: a `Point`-like plain object restored against a class map
that does not register `Point`. -/
theorem restoreValue_unknown_class_identity_witness :
    restoreValue (vObj "Point" false false [("x", true, vNum 1), ("y", true, vNum 2)])
        (makeRestorationInfo
          (vObj "Point" false false [("x", true, vNum 1), ("y", true, vNum 2)]))
        (some (genericRestorer [("Rect", fun o => o)])) =
      vObj "Point" false false [("x", true, vNum 1), ("y", true, vNum 2)] :=
  (restoreValue_unknown_class_identity "Point" false false
    [("x", true, vNum 1), ("y", true, vNum 2)] [("Rect", fun o => o)]
    (by decide) rfl).2

-- Claim C8 -----------------------------------------------------------------

/-- C8: once a bind attempt for an API name has succeeded — caching the
freshly created proxy and resolving its own promise with it — any later
`bindMainApi` call for the same name resolves immediately to that same
cached proxy: the resulting state differs from the pre-call state only by
the new resolution, so no discovery request is sent and both caches are
untouched. -/
theorem bindMainApi_after_success_uses_cache (s : BindState) (p1 p2 : Nat)
    (name : String) (ms : List String)
    (hm : regLookup s.mainApiMap name = some ms) :
    (attemptBindMainApi p1 name s).2 = true ∧
    resolvedLookup (attemptBindMainApi p1 name s).1.resolved p1 =
      some s.nextProxyId ∧
    bindMainApiStep p2 name (attemptBindMainApi p1 name s).1 =
      { (attemptBindMainApi p1 name s).1 with
          resolved := (p2, s.nextProxyId) ::
            (attemptBindMainApi p1 name s).1.resolved } := by
  refine ⟨?_, ?_, ?_⟩
  · simp [attemptBindMainApi, hm]
  · simp [attemptBindMainApi, hm, resolvedLookup]
  · simp [attemptBindMainApi, hm, bindMainApiStep, boundLookup]

/-- C8 witness: a concrete rebind after a successful bind. -/
theorem bindMainApi_after_success_uses_cache_witness :
    bindMainApiStep 9 "MainApi2"
        (attemptBindMainApi 4 "MainApi2"
          { bindStateEmpty with mainApiMap := [("MainApi2", ["doTask"])] }).1 =
      { (attemptBindMainApi 4 "MainApi2"
          { bindStateEmpty with mainApiMap := [("MainApi2", ["doTask"])] }).1 with
          resolved := (9, 0) ::
            (attemptBindMainApi 4 "MainApi2"
              { bindStateEmpty with mainApiMap := [("MainApi2", ["doTask"])] }).1.resolved } :=
  (bindMainApi_after_success_uses_cache
    { bindStateEmpty with mainApiMap := [("MainApi2", ["doTask"])] }
    4 9 "MainApi2" ["doTask"] rfl).2.2

-- Claim C7 -----------------------------------------------------------------

/-- C7 counterexample: running two concurrent binds for the same
not-yet-exposed name from the empty state sends a discovery request per
call (two, not one) and resolves the two promises with two different proxy
objects, so the claim "one request, same proxy instance" is false. -/
theorem concurrentBind_counterexample :
    ¬ (concurrentBindRun.sentRequests.length = 1 ∧
        resolvedLookup concurrentBindRun.resolved 1 =
          resolvedLookup concurrentBindRun.resolved 2) := by
  decide

/-- C7 (amended): with no cached proxy and no registry entry for the name,
two concurrent `bindMainApi` calls each send their own discovery request
(two in total, since each call checks only `_boundMainApis` before
sending), and once the registry entry arrives each retry loop constructs
its own fresh proxy: the first promise resolves to one proxy, the second
to a different one, and the cache retains the one created last. -/
theorem concurrentBind_two_requests_two_proxies (s : BindState) (p1 p2 : Nat)
    (name : String) (ms : List String)
    (hb : boundLookup s.bound name = none)
    (hm : regLookup s.mainApiMap name = none)
    (hp : p1 ≠ p2) :
    (concurrentBindScenario s p1 p2 name ms).sentRequests =
      s.sentRequests ++ [name, name] ∧
    resolvedLookup (concurrentBindScenario s p1 p2 name ms).resolved p1 =
      some s.nextProxyId ∧
    resolvedLookup (concurrentBindScenario s p1 p2 name ms).resolved p2 =
      some (s.nextProxyId + 1) ∧
    s.nextProxyId ≠ s.nextProxyId + 1 ∧
    boundLookup (concurrentBindScenario s p1 p2 name ms).bound name =
      some (s.nextProxyId + 1) := by
  have hp2 : ¬ (p2 = p1) := fun hh => hp hh.symm
  have harr : regLookup (s.mainApiMap ++ [(name, ms)]) name = some ms :=
    regLookup_append_some s.mainApiMap name ms hm
  refine ⟨?_, ?_, ?_, by omega, ?_⟩ <;>
    simp [concurrentBindScenario, bindMainApiStep, hb, registryArrives,
      attemptBindMainApi, harr, resolvedLookup, boundLookup, hp2]

/-- C7 witness for the amended statement: the concrete two-promise run. -/
theorem concurrentBind_two_requests_two_proxies_witness :
    concurrentBindRun.sentRequests = ["MainApi2", "MainApi2"] ∧
    resolvedLookup concurrentBindRun.resolved 1 = some 0 ∧
    resolvedLookup concurrentBindRun.resolved 2 = some 1 := by
  have h := concurrentBind_two_requests_two_proxies bindStateEmpty 1 2
    "MainApi2" ["doTask"] rfl rfl (by decide)
  exact ⟨h.1, h.2.1, h.2.2.1⟩

-- Claim C6 -----------------------------------------------------------------

theorem retryRun_throws_from (timeoutAt : Nat → Nat) (attempt : Nat → Bool)
    (msg : String) (K : Nat)
    (hfail : ∀ j, attempt j = false)
    (hK : timeoutAt K ≤ retryMillis * K)
    (hmin : ∀ j, j < K → retryMillis * j < timeoutAt j) :
    ∀ fuel k, k ≤ K → K - k < fuel →
      retryRun timeoutAt attempt msg fuel (retryMillis * k) k =
        RetryOutcome.threw msg K (retryMillis * K) := by
  intro fuel
  induction fuel with
  | zero => intro k _ h2; omega
  | succ fuel ih =>
    intro k hk hfuel
    by_cases hkK : k = K
    · subst hkK
      simp [retryRun, hfail, hK]
    · have hlt : k < K := lt_of_le_of_ne hk hkK
      have hnt : ¬ timeoutAt k ≤ retryMillis * k := by
        have := hmin k hlt
        omega
      have hstep : retryMillis * k + retryMillis = retryMillis * (k + 1) := by ring
      simp only [retryRun, hfail, Bool.false_eq_true, if_false, hnt]
      rw [hstep]
      exact ih (k + 1) (by omega) (by omega)

/-- C6: when every attempt fails, `retryUntilTimeout(0, …)` started with the
message `bindMainApi` passes (which names the API being bound) advances in
fixed 50 ms steps and throws that exact message at the first check `K`
whose accumulated elapsed time `50·K` has reached the binding timeout as
configured at that very check (`timeoutAt K` — each check reads the current
configured value, so a `setIpcBindingTimeout` call takes effect at the next
check of a bind already in flight).  Under the default 4000 ms
configuration the throwing check is exactly `K = 80`, i.e. 4000 ms of
accumulated waiting. -/
theorem retryUntilTimeout_times_out (apiName : String) (timeoutAt : Nat → Nat)
    (attempt : Nat → Bool) (K fuel : Nat)
    (hfail : ∀ j, attempt j = false)
    (hK : timeoutAt K ≤ retryMillis * K)
    (hmin : ∀ j, j < K → retryMillis * j < timeoutAt j)
    (hfuel : K < fuel) :
    retryRun timeoutAt attempt (bindTimeoutMessage apiName) fuel 0 0 =
      RetryOutcome.threw (bindTimeoutMessage apiName) K (retryMillis * K) ∧
    ((∀ j, timeoutAt j = defaultBindingTimeoutMillis) → K = 80) := by
  constructor
  · have h0 : retryMillis * 0 = 0 := by simp
    have h := retryRun_throws_from timeoutAt attempt (bindTimeoutMessage apiName)
      K hfail hK hmin fuel 0 (by omega) (by omega)
    rwa [h0] at h
  · intro hconst
    have h1 : defaultBindingTimeoutMillis ≤ retryMillis * K := by
      rw [← hconst K]; exact hK
    rcases lt_trichotomy K 80 with h | h | h
    · exfalso
      simp [retryMillis, defaultBindingTimeoutMillis] at h1
      omega
    · exact h
    · exfalso
      have h2 := hmin 80 h
      rw [hconst 80] at h2
      simp [retryMillis, defaultBindingTimeoutMillis] at h2

/-- C6 witness: with the default 4000 ms timeout and attempts that always
fail, the run throws the API-naming message at check 80, elapsed 4000 ms. -/
theorem retryUntilTimeout_times_out_witness :
    retryRun (fun _ => defaultBindingTimeoutMillis) (fun _ => false)
        (bindTimeoutMessage "MainApi2") 81 0 0 =
      RetryOutcome.threw (bindTimeoutMessage "MainApi2") 80 4000 :=
  (retryUntilTimeout_times_out "MainApi2" (fun _ => defaultBindingTimeoutMillis)
    (fun _ => false) 80 81 (fun _ => rfl) (by decide) (by decide) (by decide)).1

-- Claim C5 -----------------------------------------------------------------

theorem exposeApiLoop_spec (api : ApiObj) (names : List String) :
    exposeApiLoop api names =
      (names.filter (fun m =>
          decide (m ≠ "constructor")
            && decide (¬ (m.data.head? = some '_' ∨ m.data.head? = some '#'))
            && isFunction (protoLookup api.levels m)),
       (names.filter (fun m =>
          decide (m ≠ "constructor")
            && decide (¬ (m.data.head? = some '_' ∨ m.data.head? = some '#'))
            && isFunction (protoLookup api.levels m))).map
         (fun m => (toIpcName api.className m, protoLookup api.levels m))) := by
  induction names with
  | nil => rfl
  | cons m rest ih =>
    by_cases hA : m = "constructor"
    · subst hA
      simp [exposeApiLoop, ih, List.filter_cons]
    · by_cases hX : m.data.head? = some '_'
      · simp [exposeApiLoop, ih, List.filter_cons, hA, hX]
      · by_cases hY : m.data.head? = some '#'
        · simp [exposeApiLoop, ih, List.filter_cons, hA, hX, hY]
        · by_cases hC : isFunction (protoLookup api.levels m)
          · simp [exposeApiLoop, ih, List.filter_cons, hA, hX, hY, hC]
          · simp [exposeApiLoop, ih, List.filter_cons, hA, hX, hY, hC]

/-- C5 (amended): when the class name is not yet registered, `exposeApi`
registers, in chain order, exactly the prototype-chain property names that
are not `constructor`, do not begin with a privacy marker (`_` or `#`),
and whose looked-up value is callable, invoking `installHandler` once per
registered name with the wire name `"<ApiName>:<methodName>"`; when the
class name is already registered the call is a silent no-op that modifies
nothing and installs no handler.  (The original claim omitted the
`constructor` exclusion.) -/
theorem exposeApi_registers_impl_methods (apiMap : ApiRegistrationMap)
    (api : ApiObj) :
    (∀ ms0, regLookup apiMap api.className = some ms0 →
      exposeApi apiMap api = (apiMap, [])) ∧
    (regLookup apiMap api.className = none →
      exposeApi apiMap api =
        (apiMap ++ [(api.className, implPublicMethods api)],
         (implPublicMethods api).map
           (fun m => (toIpcName api.className m, protoLookup api.levels m)))) := by
  constructor
  · intro ms0 h
    simp [exposeApi, h]
  · intro h
    simp [exposeApi, h, exposeApiLoop_spec, implPublicMethods]

/-- C5 counterexample: on a class instance whose prototype owns its
(callable) `constructor`, the registered method list differs from the set
described by the claim, and the number of installed handlers differs from
that set's size — the code additionally excludes `constructor`. -/
theorem exposeApi_spec_set_counterexample :
    (exposeApi [] apiWithConstructor).1 ≠
      [("MainApi1", specPublicMethods apiWithConstructor)] ∧
    (exposeApi [] apiWithConstructor).2.length ≠
      (specPublicMethods apiWithConstructor).length := by
  decide

/-- C5 witness for the amended statement: both the no-op branch and the
registering branch on the concrete API instance. -/
theorem exposeApi_registers_impl_methods_witness :
    exposeApi [("MainApi1", ["doTask"])] apiWithConstructor =
      ([("MainApi1", ["doTask"])], []) ∧
    exposeApi [] apiWithConstructor =
      ([("MainApi1", implPublicMethods apiWithConstructor)],
       (implPublicMethods apiWithConstructor).map
         (fun m => (toIpcName apiWithConstructor.className m,
           protoLookup apiWithConstructor.levels m))) :=
  ⟨(exposeApi_registers_impl_methods [("MainApi1", ["doTask"])]
      apiWithConstructor).1 ["doTask"] rfl,
   (exposeApi_registers_impl_methods [] apiWithConstructor).2 rfl⟩

-- Claim C2 -----------------------------------------------------------------

/-- C2 (amended): for every thrown value whose JavaScript `typeof` is not
`"object"` — numbers, strings, booleans, `undefined`, functions, but *not*
`null`, which JavaScript classifies as an object — `makeRethrownReturnValue`
boxes the value in the internal `__ThrownNonObject` wrapper recording it,
and `restoreThrownValue` (with any restorer, which is never consulted on
the wrapper path) returns exactly the original value, unwrapped and not
stringified. -/
theorem nonObjectThrow_roundtrip (t : JSVal) (restorer : Option RestorerFn)
    (h : typeofJS t ≠ "object") :
    makeRethrownReturnValue t =
      (mkThrownNonObject t,
       some { argIndex := none, className := "__ThrownNonObject",
              isError := false, isCallback := false }) ∧
    restoreThrownValue (mkThrownNonObject t)
        (some { argIndex := none, className := "__ThrownNonObject",
                isError := false, isCallback := false }) restorer =
      Except.ok t := by
  constructor
  · rw [makeRethrownReturnValue, if_pos h]
    rfl
  · rfl

/-- C2 witness: the literal thrown `42` comes back as exactly `42`. -/
theorem nonObjectThrow_roundtrip_witness :
    restoreThrownValue (mkThrownNonObject (vNum 42))
        (some { argIndex := none, className := "__ThrownNonObject",
                isError := false, isCallback := false }) none =
      Except.ok (vNum 42) :=
  (nonObjectThrow_roundtrip (vNum 42) none (by decide)).2

/-- C2 counterexample: thrown `null`.  `typeof null == "object"`, so the
code takes the object path: the wire value is a bare tagged object, not the
`__ThrownNonObject` wrapper, the restoration info is `null`, and
`restoreThrownValue` then crashes reading `info.isError` instead of
returning `null` to the caller. -/
theorem nonObjectThrow_null_counterexample :
    (makeRethrownReturnValue vNull).1 ≠ mkThrownNonObject vNull ∧
    (makeRethrownReturnValue vNull).2 = none ∧
    restoreThrownValue (makeRethrownReturnValue vNull).1
        (makeRethrownReturnValue vNull).2 none =
      Except.error "TypeError: cannot read properties of null" := by
  refine ⟨?_, rfl, rfl⟩
  intro h
  have hgw := congrArg isGenuineWrapper h
  exact absurd hgw (by decide)

-- Claim C1 -----------------------------------------------------------------

theorem restoreThrown_reconstructs (w : JSVal) (i : RestorationInfo)
    (r : Option RestorerFn) (m : String) (acc : List JSField)
    (hw : deleteProp w "_affinity_rethrow" = vObj "Object" false false acc)
    (hmsg2 : findField acc "message" = some (vStr m))
    (hid : restoreValue (vObj "Object" false false acc) (some i) r =
      vObj "Object" false false acc)
    (hie : i.isError = true) :
    ∃ res, restoreThrownValue w (some i) r = Except.ok res ∧
      isErrorInstance res = true ∧ getProp res "message" = vStr m ∧
      getProp res "stack" = vStr ("Error: " ++ m ++ "\n\tin main process") := by
  have hgm : getProp (vObj "Object" false false acc) "message" = vStr m := by
    simp [getProp, hmsg2]
  have hmk : mkError (vStr m) =
      vObj "Error" true false
        [("message", false, vStr m),
         ("stack", false, vStr "Error\n    at <anonymous>")] := by
    simp [mkError, jsDisplay]
  obtain ⟨acc4, hacc4⟩ := assignFields_meta (removeField acc "message")
    "Error" true false
    [("message", false, vStr m), ("stack", false, vStr "Error\n    at <anonymous>")]
  have hv4 : objAssign (mkError (vStr m))
      [vObj "Object" false false (removeField acc "message")] =
      vObj "Error" true false acc4 := by
    rw [hmk, objAssign, List.foldl_cons, List.foldl_nil]
    exact hacc4
  have hv4msg : getProp (vObj "Error" true false acc4) "message" = vStr m := by
    rw [← hacc4]
    rw [getProp_assignFields_absent (removeField acc "message") "message"
      (fun f hf _ => removeField_not_named acc "message" f hf)]
    rfl
  have hsynth : syntheticStack (vObj "Error" true false acc4) =
      "Error: " ++ m ++ "\n\tin main process" := by
    rw [syntheticStack, constructorNameOf, hv4msg]
    rfl
  refine ⟨setProp (vObj "Error" true false acc4) "stack"
    (vStr ("Error: " ++ m ++ "\n\tin main process")), ?_, ?_, ?_, ?_⟩
  · simp only [restoreThrownValue, hw, hid]
    rw [if_neg (by simp [isGenuineWrapper]), if_neg (by simp [isErrorInstance])]
    simp only [hie, if_true]
    rw [hgm]
    show Except.ok (setProp (objAssign (mkError (vStr m))
      [deleteProp (vObj "Object" false false acc) "message"]) "stack"
        (vStr (syntheticStack (objAssign (mkError (vStr m))
          [deleteProp (vObj "Object" false false acc) "message"])))) = _
    rw [show deleteProp (vObj "Object" false false acc) "message" =
      vObj "Object" false false (removeField acc "message") from rfl]
    rw [hv4, hsynth]
  · simp [setProp, isErrorInstance]
  · rw [getProp_setProp_other_any _ _ _ _ (by decide)]
    exact hv4msg
  · exact getProp_setProp_self "Error" true false acc4 "stack" _

/-- C1: relaying a thrown `Error` instance (well-formed: unique property
names, string `message`, class name distinct from the reserved internal
wrapper name) produces a wire value whose `message` equals the original
message and which has no `stack` field at all, together with info recording
the class and the `Error` flag; restoring it — with no restorer, or with
`genericRestorer` over a map that does not know the class — yields an
`Error` whose `message` is the original message and whose `stack` is
exactly the synthetic trace `"Error: <message>"` followed by the line
`"in main process"`, so nothing of the throwing side's stack survives. -/
theorem errorRelay_message_and_stack (cls : String) (F : List JSField)
    (m : String) (M : RestorableMap)
    (hnd : (F.map (fun f => f.1)).Nodup)
    (hmsg : findField F "message" = some (vStr m))
    (hcls : cls ≠ "__ThrownNonObject")
    (hM : classLookup M cls = none) :
    getProp (makeRethrownReturnValue (vObj cls true false F)).1 "message" = vStr m ∧
    hasProp (makeRethrownReturnValue (vObj cls true false F)).1 "stack" = false ∧
    (makeRethrownReturnValue (vObj cls true false F)).2 =
      some { argIndex := none, className := cls, isError := true,
             isCallback := false } ∧
    (∃ res, restoreThrownValue (makeRethrownReturnValue (vObj cls true false F)).1
        (makeRethrownReturnValue (vObj cls true false F)).2 none =
          Except.ok res ∧
      isErrorInstance res = true ∧ getProp res "message" = vStr m ∧
      getProp res "stack" = vStr ("Error: " ++ m ++ "\n\tin main process")) ∧
    (∃ res, restoreThrownValue (makeRethrownReturnValue (vObj cls true false F)).1
        (makeRethrownReturnValue (vObj cls true false F)).2
        (some (genericRestorer M)) = Except.ok res ∧
      isErrorInstance res = true ∧ getProp res "message" = vStr m ∧
      getProp res "stack" = vStr ("Error: " ++ m ++ "\n\tin main process")) := by
  have hgm : getProp (vObj cls true false F) "message" = vStr m := by
    simp [getProp, hmsg]
  have hbranch : makeRethrownReturnValue (vObj cls true false F) =
      (deleteProp (List.foldl assignField
        (vObj "Object" false false
          [("_affinity_rethrow", true, vBool true), ("message", true, vStr m)]) F)
        "stack",
       some { argIndex := none, className := cls, isError := true,
              isCallback := false }) := by
    rw [makeRethrownReturnValue, if_neg (by simp [typeofJS])]
    simp only [makeRestorationInfo, isErrorInstance, if_true, hgm]
    rfl
  obtain ⟨acc2, hacc2⟩ := assignFields_meta F "Object" false false
    [("_affinity_rethrow", true, vBool true), ("message", true, vStr m)]
  have hWmsg : getProp (vObj "Object" false false acc2) "message" = vStr m := by
    rw [← hacc2]
    exact getProp_assignFields_stable F "message" (vStr m)
      (findField_unique F "message" (vStr m) hnd hmsg) _ rfl
  have hwform : (makeRethrownReturnValue (vObj cls true false F)).1 =
      vObj "Object" false false (removeField acc2 "stack") := by
    rw [hbranch, hacc2]
    rfl
  have hwmsg : getProp (vObj "Object" false false (removeField acc2 "stack"))
      "message" = vStr m := by
    have := getProp_deleteProp_other (vObj "Object" false false acc2) "stack"
      "message" (by decide)
    rw [show deleteProp (vObj "Object" false false acc2) "stack" =
      vObj "Object" false false (removeField acc2 "stack") from rfl] at this
    rw [this]
    exact hWmsg
  have hdel : deleteProp (vObj "Object" false false (removeField acc2 "stack"))
      "_affinity_rethrow" =
      vObj "Object" false false
        (removeField (removeField acc2 "stack") "_affinity_rethrow") := rfl
  have hmsg3 : findField
      (removeField (removeField acc2 "stack") "_affinity_rethrow")
      "message" = some (vStr m) := by
    have h1 : getProp (vObj "Object" false false
        (removeField (removeField acc2 "stack") "_affinity_rethrow"))
        "message" = vStr m := by
      rw [← hdel,
        getProp_deleteProp_other _ _ _ (by decide)]
      exact hwmsg
    rw [getProp] at h1
    cases hff : findField
        (removeField (removeField acc2 "stack") "_affinity_rethrow")
        "message" with
    | none => rw [hff] at h1; exact absurd h1 (by simp)
    | some x => rw [hff] at h1; simpa using h1
  refine ⟨?_, ?_, ?_, ?_, ?_⟩
  · rw [hwform]; exact hwmsg
  · rw [hbranch]
    exact hasProp_deleteProp_self _ "stack"
  · rw [hbranch]
  · rw [hwform, hbranch]
    exact restoreThrown_reconstructs _ _ none m _ hdel hmsg3
      (by simp [restoreValue, hcls]) rfl
  · rw [hwform, hbranch]
    exact restoreThrown_reconstructs _ _ (some (genericRestorer M)) m _ hdel hmsg3
      (by simp [restoreValue, hcls, genericRestorer, hM]) rfl

/-- C1 witness: a thrown `RangeError` with message `"bad creds"`, an extra
data property, and the original (non-enumerable) engine stack trace. -/
theorem errorRelay_message_and_stack_witness :
    getProp (makeRethrownReturnValue (vObj "RangeError" true false
      [("message", false, vStr "bad creds"),
       ("stack", false, vStr "RangeError: bad creds\n    at login.js:17"),
       ("code", true, vNum 401)])).1 "message" = vStr "bad creds" ∧
    hasProp (makeRethrownReturnValue (vObj "RangeError" true false
      [("message", false, vStr "bad creds"),
       ("stack", false, vStr "RangeError: bad creds\n    at login.js:17"),
       ("code", true, vNum 401)])).1 "stack" = false := by
  have h := errorRelay_message_and_stack "RangeError"
    [("message", false, vStr "bad creds"),
     ("stack", false, vStr "RangeError: bad creds\n    at login.js:17"),
     ("code", true, vNum 401)]
    "bad creds" [] (by decide) rfl (by decide) rfl
  exact ⟨h.1, h.2.1⟩

-- Claim C4 -----------------------------------------------------------------

theorem makeArgsRestorableAux_spec : ∀ (L : List JSVal) (i c : Nat),
    makeArgsRestorableAux i c L =
      (wireArgsFrom c L, argInfosFrom i L, callbackAssoc c L,
       c + countCallbacks L) := by
  intro L
  induction L with
  | nil =>
    intro i c
    simp [makeArgsRestorableAux, wireArgsFrom, argInfosFrom, callbackAssoc,
      countCallbacks]
  | cons a r ih =>
    intro i c
    cases a
    all_goals
      simp [makeArgsRestorableAux, wireArgsFrom, argInfosFrom, callbackAssoc,
        countCallbacks, makeRestorationInfo, isFunction, ih]
    all_goals omega

theorem argInfosFrom_index_ge : ∀ (L : List JSVal) (j : Nat),
    ∀ inf ∈ argInfosFrom j L, ∃ k, inf.argIndex = some k ∧ j ≤ k := by
  intro L
  induction L with
  | nil => intro j inf hmem; simp [argInfosFrom] at hmem
  | cons a r ih =>
    intro j inf hmem
    cases ha : makeRestorationInfo a with
    | none =>
      rw [argInfosFrom, ha] at hmem
      obtain ⟨k, hk1, hk2⟩ := ih (j + 1) inf hmem
      exact ⟨k, hk1, by omega⟩
    | some inf0 =>
      rw [argInfosFrom, ha] at hmem
      rcases List.mem_cons.mp hmem with h1 | h2
      · subst h1
        exact ⟨j, rfl, le_refl j⟩
      · obtain ⟨k, hk1, hk2⟩ := ih (j + 1) inf h2
        exact ⟨k, hk1, by omega⟩

theorem restoreArgsAux_roundtrip : ∀ (L : List JSVal) (i c : Nat),
    (∀ a ∈ L, notWrapperClass a = true) →
    restoreArgsAux none i (argInfosFrom i L) (wireArgsFrom c L) =
      (wireArgsFrom c L, callbackIndexMap c i L) := by
  intro L
  induction L with
  | nil => intro i c _; rfl
  | cons a r ih =>
    intro i c h
    have ha := h a (List.mem_cons_self a r)
    have hr : ∀ x ∈ r, notWrapperClass x = true :=
      fun x hx => h x (List.mem_cons_of_mem _ hx)
    have hprim : ∀ (hnf : isFunction a = false) (hni : makeRestorationInfo a = none),
        restoreArgsAux none i (argInfosFrom i (a :: r)) (wireArgsFrom c (a :: r)) =
          (wireArgsFrom c (a :: r), callbackIndexMap c i (a :: r)) := by
      intro hnf hni
      rw [wireArgsFrom, if_neg (by simp [hnf]), argInfosFrom, hni,
        callbackIndexMap, if_neg (by simp [hnf])]
      cases hinf : argInfosFrom (i + 1) r with
      | nil =>
        rw [restoreArgsAux]
        have hih := ih (i + 1) c hr
        rw [hinf] at hih
        simp [restoreValue, hih]
      | cons inf more =>
        obtain ⟨k, hk1, hk2⟩ := argInfosFrom_index_ge r (i + 1) inf
          (by rw [hinf]; exact List.mem_cons_self _ _)
        rw [restoreArgsAux, if_neg (by rw [hk1]; simp; omega)]
        have hih := ih (i + 1) c hr
        rw [hinf] at hih
        simp [restoreValue, hih]
    cases a with
    | vFunc id =>
      rw [wireArgsFrom, if_pos (by simp [isFunction]), argInfosFrom]
      simp only [makeRestorationInfo]
      rw [callbackIndexMap, if_pos (by simp [isFunction])]
      rw [restoreArgsAux, if_pos rfl]
      have hih := ih (i + 1) (c + 1) hr
      simp only [restoreValue]
      rw [if_neg (by decide)]
      simp [hih, jsDisplay]
    | vObj cls ie g fs =>
      rw [wireArgsFrom, if_neg (by simp [isFunction]), argInfosFrom]
      simp only [makeRestorationInfo]
      rw [callbackIndexMap, if_neg (by simp [isFunction])]
      rw [restoreArgsAux, if_pos rfl]
      have hih := ih (i + 1) c hr
      have hcls : cls ≠ "__ThrownNonObject" := by
        simpa [notWrapperClass] using ha
      simp only [restoreValue]
      rw [if_neg (by simpa using hcls)]
      simp [hih]
    | vUndefined => exact hprim rfl rfl
    | vNull => exact hprim rfl rfl
    | vBool b => exact hprim rfl rfl
    | vNum n => exact hprim rfl rfl
    | vStr s => exact hprim rfl rfl

theorem callbackAssoc_names_ge : ∀ (L : List JSVal) (c : Nat) (s : String),
    s ∈ (callbackAssoc c L).map Prod.fst →
      ∃ k, c + 1 ≤ k ∧ s = callbackChannelName k := by
  intro L
  induction L with
  | nil => intro c s hmem; simp [callbackAssoc] at hmem
  | cons a r ih =>
    intro c s hmem
    by_cases hf : isFunction a
    · rw [callbackAssoc, if_pos hf] at hmem
      rcases List.mem_map.mp hmem with ⟨p, hp, hps⟩
      rcases List.mem_cons.mp hp with h1 | h2
      · subst h1
        exact ⟨c + 1, le_refl _, hps.symm⟩
      · obtain ⟨k, hk1, hk2⟩ := ih (c + 1) s
          (List.mem_map.mpr ⟨p, h2, hps⟩)
        exact ⟨k, by omega, hk2⟩
    · rw [callbackAssoc, if_neg hf] at hmem
      obtain ⟨k, hk1, hk2⟩ := ih c s hmem
      exact ⟨k, hk1, hk2⟩

theorem callbackAssoc_names_nodup : ∀ (L : List JSVal) (c : Nat),
    ((callbackAssoc c L).map Prod.fst).Nodup := by
  intro L
  induction L with
  | nil => intro c; simp [callbackAssoc]
  | cons a r ih =>
    intro c
    by_cases hf : isFunction a
    · rw [callbackAssoc, if_pos hf]
      rw [List.map_cons, List.nodup_cons]
      constructor
      · intro hmem
        obtain ⟨k, hk1, hk2⟩ := callbackAssoc_names_ge r (c + 1) _ hmem
        have := callbackChannelName_injective hk2
        omega
      · exact ih (c + 1)
    · rw [callbackAssoc, if_neg hf]
      exact ih c

/-- C4: `makeArgsRestorable` appends exactly the ordered, index-tagged
restoration records (one per object- or function-valued argument) as the
trailing extra element, replaces each function argument in place by a
freshly allocated channel name `_affinity_event_callback_<n>` drawn from a
strictly increasing counter — so the allocated names are pairwise
distinct — and returns the map from each channel name to the original
function; a subsequent `restoreArgs` with no restorer pops the trailing
info list, leaves every argument of the wire list unchanged (in particular
every non-function argument keeps its original value), and returns the map
from each callback channel name to the argument index holding it.  The
arguments are assumed not to use the reserved internal wrapper class name. -/
theorem makeArgsRestorable_restoreArgs_spec (ctr : Nat) (args : List JSVal)
    (h : ∀ a ∈ args, notWrapperClass a = true) :
    (makeArgsRestorable ctr args).1.args = wireArgsFrom ctr args ∧
    (makeArgsRestorable ctr args).1.infos = argInfosFrom 0 args ∧
    (makeArgsRestorable ctr args).2.1 = callbackAssoc ctr args ∧
    ((callbackAssoc ctr args).map Prod.fst).Nodup ∧
    (makeArgsRestorable ctr args).2.2 = ctr + countCallbacks args ∧
    restoreArgs (makeArgsRestorable ctr args).1 none =
      (wireArgsFrom ctr args, callbackIndexMap ctr 0 args) := by
  have hspec := makeArgsRestorableAux_spec args 0 ctr
  refine ⟨?_, ?_, ?_, callbackAssoc_names_nodup args ctr, ?_, ?_⟩
  · simp [makeArgsRestorable, hspec]
  · simp [makeArgsRestorable, hspec]
  · simp [makeArgsRestorable, hspec]
  · simp [makeArgsRestorable, hspec]
  · rw [restoreArgs]
    simp only [makeArgsRestorable, hspec]
    exact restoreArgsAux_roundtrip args 0 ctr h

/-- C4 witness: the concrete argument list, starting at counter 4: the two
functions get the fresh names 5 and 6, the other arguments ride through
unchanged, and restoration recovers the callback indices 1 and 4. -/
theorem makeArgsRestorable_restoreArgs_spec_witness :
    (makeArgsRestorable 4 argsW).1.args =
      [vNum 7, vStr "_affinity_event_callback_5", vStr "cb",
       vObj "Point" false false [("x", true, vNum 1)],
       vStr "_affinity_event_callback_6"] ∧
    (makeArgsRestorable 4 argsW).2.1 =
      [("_affinity_event_callback_5", vFunc 3),
       ("_affinity_event_callback_6", vFunc 8)] ∧
    restoreArgs (makeArgsRestorable 4 argsW).1 none =
      ((makeArgsRestorable 4 argsW).1.args,
       [("_affinity_event_callback_5", 1), ("_affinity_event_callback_6", 4)]) := by
  have h := makeArgsRestorable_restoreArgs_spec 4 argsW (by decide)
  refine ⟨h.1.trans rfl, h.2.2.1.trans rfl, ?_⟩
  rw [h.2.2.2.2.2, h.1]
  rfl
